import Mathlib

/-
Verification of the AT2XT firmware core (src/main.rs): a protocol bridge
between an AT/PS-2 keyboard and an XT host.  Machine integers are modelled
as Nat with explicit truncation where the Rust code truncates.  Stateful and
IO-performing code is modelled as pure state transformers that additionally
record a trace of the pin/flag actions they perform, in program order.
The modules keybuffer.rs, keyfsm.rs and driver.rs of the repository are not
available; their small data types are modelled from the spec, as marked.
-/

namespace AT2XT

/-- Modelled from the spec: `swap_bits` of the external `bit_reverse` crate
reverses the bit order of an 8-bit byte (bit i moves to bit 7-i). -/
def swap_bits (v : Nat) : Nat :=
  (((v >>> 0) &&& 1) <<< 7) ||| (((v >>> 1) &&& 1) <<< 6) |||
  (((v >>> 2) &&& 1) <<< 5) ||| (((v >>> 3) &&& 1) <<< 4) |||
  (((v >>> 4) &&& 1) <<< 3) ||| (((v >>> 5) &&& 1) <<< 2) |||
  (((v >>> 6) &&& 1) <<< 1) ||| (((v >>> 7) &&& 1) <<< 0)

/-- `us_to_ticks!` macro of src/main.rs (default, non-timer build):
delay granularity is 0.625 us, so `$u * 16 / 10` ticks. -/
def us_to_ticks (u : Nat) : Nat := u * 16 / 10

/-- The scancode extraction performed in the `WaitForKey` arm of `idle`
(src/main.rs lines 231-233): mask out start/stop bits with `!(0x4000+0x0001)`
(as u16: 0xBFFE), shift right by 2, truncate to 8 bits (`as u8`), and
reverse the bit order with `swap_bits`. -/
def extract_scancode (w : Nat) : Nat :=
  swap_bits (((w &&& 0xBFFE) >>> 2) &&& 0xFF)

/-- A reading of the two XT lines, as polled by the wait loop at the top of
`send_byte_to_pc` (true = line reads high). -/
structure XTLines where
  clk : Bool
  data : Bool
deriving DecidableEq

/-- Pin actions performed on the XT side, in program order. -/
inductive XTAct where
  | xtDataSet
  | xtDataUnset
  | xtClkSet
  | xtClkUnset
  | delay (ticks : Nat)
  | xtOut
  | xtIn
deriving DecidableEq

/-- `send_xt_bit` (src/main.rs lines 241-260): drive `xt_data` to the bit
value (set iff bit == 1), pull `xt_clk` low, delay 55 us, release `xt_clk`. -/
def send_xt_bit (bit : Nat) : List XTAct :=
  (if bit = 1 then [XTAct.xtDataSet] else [XTAct.xtDataUnset]) ++
  [XTAct.xtClkUnset, XTAct.delay (us_to_ticks 55), XTAct.xtClkSet]

/-- The data-bit loop of `send_byte_to_pc` (src/main.rs lines 280-283):
n iterations, each emitting `byte & 0x01` and then shifting `byte` right. -/
def xt_loop_bits : Nat → Nat → List Nat
  | 0, _ => []
  | n + 1, byte => (byte &&& 0x01) :: xt_loop_bits n (byte >>> 1)

/-- `send_byte_to_pc` (src/main.rs lines 262-288).  The environment list
gives the successive readings of (`xt_clk`, `xt_data`) seen by the polls of
the host-release wait loop; the function busy-polls while either line reads
low (`none` = the environment ran out while it was still polling, i.e. no
action was performed), then switches the XT lines to outputs (`xt_out`),
sends bits 0, 1, the 8 data bits LSB-first, and switches back to inputs. -/
def send_byte_to_pc (env : List XTLines) (byte : Nat) : Option (List XTAct) :=
  match env with
  | [] => none
  | l :: rest =>
    if !l.clk || !l.data then
      send_byte_to_pc rest byte
    else
      some (XTAct.xtOut ::
        (send_xt_bit 0 ++ send_xt_bit 1 ++
          ((xt_loop_bits 8 byte).map send_xt_bit).flatten ++ [XTAct.xtIn]))

/-- Modelled from the spec: `KeyIn` of keybuffer.rs, a 16-bit accumulator
and a bit counter for the incoming 11-bit AT frame. -/
structure KeyIn where
  pos : Nat
  contents : Nat
deriving DecidableEq

/-- Modelled from the spec: `KeyIn::new`, zeroed at boot. -/
def KeyIn.new : KeyIn := ⟨0, 0⟩

/-- Modelled from the spec: `shift_in(bit)` shifts the accumulator by one
and deposits the bit at the high position of the 11-bit window, keeping the
value inside the 16-bit holding word. -/
def KeyIn.shift_in (k : KeyIn) (bit : Bool) : KeyIn :=
  ⟨k.pos + 1, ((k.contents >>> 1) ||| ((if bit then 1 else 0) <<< 10)) % 65536⟩

/-- Modelled from the spec: `is_full()` iff exactly 11 bits have been
shifted in since the last `clear()`. -/
def KeyIn.is_full (k : KeyIn) : Bool := k.pos == 11

/-- Modelled from the spec: `take()` returns the accumulator as the raw
frame. -/
def KeyIn.take (k : KeyIn) : Option Nat := some k.contents

/-- Modelled from the spec: `clear()` resets accumulator and counter. -/
def KeyIn.clear (_ : KeyIn) : KeyIn := ⟨0, 0⟩

/-- Modelled from the spec: `KeyOut` of keybuffer.rs holds the precomputed
11-bit AT frame to transmit and the position of the next bit to shift out
(LSB-first: start bit at bit 0). -/
structure KeyOut where
  pos : Nat
  contents : Nat
deriving DecidableEq

/-- Modelled from the spec: `KeyOut::new`, empty at boot. -/
def KeyOut.new : KeyOut := ⟨11, 0⟩

/-- Modelled from the spec: the odd parity bit over the 8 data bits: 1 iff
the number of 1 bits among the data bits is even. -/
def odd_parity (b : Nat) : Nat :=
  (1 + ((b >>> 0) &&& 1) + ((b >>> 1) &&& 1) + ((b >>> 2) &&& 1) + ((b >>> 3) &&& 1) +
    ((b >>> 4) &&& 1) + ((b >>> 5) &&& 1) + ((b >>> 6) &&& 1) + ((b >>> 7) &&& 1)) % 2

/-- Modelled from the spec: `put(byte)` precomputes the frame
start(0), 8 data bits, odd parity, stop(1), and rewinds the position. -/
def KeyOut.put (_ : KeyOut) (byte : Nat) : KeyOut :=
  ⟨0, (((byte &&& 0xFF) <<< 1) ||| ((odd_parity byte) <<< 9) ||| (1 <<< 10))⟩

/-- Modelled from the spec: `is_empty()` iff every bit (including the stop
bit) has been shifted out. -/
def KeyOut.is_empty (k : KeyOut) : Bool := k.pos > 10

/-- Modelled from the spec: `shift_out()` returns the next bit (LSB-first)
and advances. -/
def KeyOut.shift_out (k : KeyOut) : Bool × KeyOut :=
  (((k.contents >>> k.pos) &&& 1) == 1, ⟨k.pos + 1, k.contents⟩)

/-- Modelled from the spec: `clear()` empties the output register. -/
def KeyOut.clear (_ : KeyOut) : KeyOut := ⟨11, 0⟩

/-- Modelled from the spec: `KeycodeBuffer` of keybuffer.rs
(the `IN_BUFFER` resource): a single-slot buffer holding one 16-bit word. -/
structure KeycodeBuffer where
  present : Bool
  word : Nat
deriving DecidableEq

/-- Modelled from the spec: empty buffer at boot. -/
def KeycodeBuffer.new : KeycodeBuffer := ⟨false, 0⟩

/-- Modelled from the spec: `is_empty()`. -/
def KeycodeBuffer.is_empty (b : KeycodeBuffer) : Bool := !b.present

/-- Modelled from the spec: `put(w)` stores the word, overwriting silently. -/
def KeycodeBuffer.put (_ : KeycodeBuffer) (w : Nat) : KeycodeBuffer := ⟨true, w⟩

/-- Modelled from the spec: `take()` returns the stored word and empties the
slot; failure (`none`) if the slot is empty. -/
def KeycodeBuffer.take (b : KeycodeBuffer) : Option Nat × KeycodeBuffer :=
  if b.present then (some b.word, ⟨false, b.word⟩) else (none, b)

/-- Modelled from the spec: `flush()` clears the slot. -/
def KeycodeBuffer.flush (b : KeycodeBuffer) : KeycodeBuffer := ⟨false, b.word⟩

/-- Actions performed by the AT clock-edge interrupt handler, in program
order.  Pin operations on the AT lines and updates of the shared state are
both recorded. -/
inductive ISRAct where
  | shiftIn (bit : Bool)
  | atDataSet
  | atDataUnset
  | atInhibit
  | bufPut (w : Nat)
  | keyInClear
  | atIdle
  | setDeviceAckTrue
  | keyOutClear
  | clearClkInt
deriving DecidableEq

/-- The shared state touched by `porta_handler`. -/
structure ISRState where
  key_in : KeyIn
  key_out : KeyOut
  in_buffer : KeycodeBuffer
  device_ack : Bool
deriving DecidableEq

/-- `porta_handler` (src/main.rs lines 114-155).  Arguments: the value of
the `HOST_MODE` flag, the sampled level of `at_data` (true = high), and the
shared state.  Returns the new state and the trace of actions performed. -/
def porta_handler (host_mode : Bool) (at_data : Bool) (s : ISRState) :
    ISRState × List ISRAct :=
  if host_mode then
    if !s.key_out.is_empty then
      let so := s.key_out.shift_out
      let drive := if so.1 then ISRAct.atDataSet else ISRAct.atDataUnset
      if so.2.is_empty then
        ({ s with key_out := so.2 }, [drive, ISRAct.atIdle, ISRAct.clearClkInt])
      else
        ({ s with key_out := so.2 }, [drive, ISRAct.clearClkInt])
    else
      if !at_data then
        ({ s with device_ack := true, key_out := s.key_out.clear },
         [ISRAct.setDeviceAckTrue, ISRAct.keyOutClear, ISRAct.clearClkInt])
      else
        (s, [ISRAct.clearClkInt])
  else
    let ki := s.key_in.shift_in at_data
    if ki.is_full then
      ({ s with key_in := ki.clear, in_buffer := s.in_buffer.put ki.contents },
       [ISRAct.shiftIn at_data, ISRAct.atInhibit, ISRAct.bufPut ki.contents,
        ISRAct.keyInClear, ISRAct.atIdle, ISRAct.clearClkInt])
    else
      ({ s with key_in := ki }, [ISRAct.shiftIn at_data, ISRAct.clearClkInt])

/-- Actions performed by `send_byte_to_at_keyboard` (and `toggle_leds`), in
program order.  `critStart`/`critEnd` delimit one `rtfm::atomic` critical
section; `waitClkHigh` and `waitDeviceAck` stand for the busy-wait loops. -/
inductive ATAct where
  | critStart
  | critEnd
  | putKeyOut (byte : Nat)
  | disableClkInt
  | waitClkHigh
  | atInhibit
  | delay (ticks : Nat)
  | atDataLow
  | atClkSet
  | atClkMkIn
  | clearPendingClkInt
  | enableClkInt
  | setHostMode (v : Bool)
  | setDeviceAck (v : Bool)
  | waitDeviceAck
deriving DecidableEq

/-- `send_byte_to_at_keyboard` (src/main.rs lines 290-340) as its trace of
actions, one group of actions per source statement block. -/
def send_byte_to_at_keyboard (byte : Nat) : List ATAct :=
  [ATAct.critStart, ATAct.putKeyOut byte, ATAct.disableClkInt, ATAct.critEnd] ++
  [ATAct.waitClkHigh] ++
  [ATAct.critStart, ATAct.atInhibit, ATAct.critEnd] ++
  [ATAct.delay (us_to_ticks 100)] ++
  [ATAct.critStart, ATAct.atDataLow, ATAct.critEnd] ++
  [ATAct.delay (us_to_ticks 33)] ++
  [ATAct.critStart, ATAct.atClkSet, ATAct.atClkMkIn, ATAct.clearPendingClkInt,
   ATAct.enableClkInt, ATAct.setHostMode true, ATAct.setDeviceAck false, ATAct.critEnd] ++
  [ATAct.waitDeviceAck] ++
  [ATAct.setHostMode false]

/-- `toggle_leds` (src/main.rs lines 342-346): send 0xED, delay 3000 us,
send the mask byte. -/
def toggle_leds (mask : Nat) : List ATAct :=
  send_byte_to_at_keyboard 0xED ++
  [ATAct.delay (us_to_ticks 3000)] ++
  send_byte_to_at_keyboard mask

/-- Following the claim's words: a wait for the 0xFA acknowledgement byte
would have to be an action of the AT transmit trace carrying that byte
value; this collects the byte value carried by an action, if any. -/
def at_act_byte : ATAct → Option Nat
  | ATAct.putKeyOut b => some b
  | _ => none

/-- The busy-wait actions of the AT transmit trace. -/
def is_wait : ATAct → Bool
  | ATAct.waitClkHigh => true
  | ATAct.waitDeviceAck => true
  | _ => false

/-- The value of the `HOST_MODE` flag after one action. -/
def hm_after (hm : Bool) (a : ATAct) : Bool :=
  match a with
  | ATAct.setHostMode v => v
  | _ => hm

/-- The value of the `HOST_MODE` flag after a trace of actions. -/
def run_host_mode (hm : Bool) (l : List ATAct) : Bool := l.foldl hm_after hm

/-- The sublist of actions of a trace that execute while `HOST_MODE` is
true (judged by the flag value before each action). -/
def acts_in_host_mode (hm : Bool) : List ATAct → List ATAct
  | [] => []
  | a :: rest =>
    (if hm then [a] else []) ++ acts_in_host_mode (hm_after hm a) rest

/-- Byte-level sends performed by the `WaitForKey` arm of `idle`. -/
inductive IdleAct where
  | sendAT (byte : Nat)
  | sendXT (byte : Nat)
deriving DecidableEq

/-- Modelled from the spec: the `ProcReply` variants of keyfsm.rs returned
by the `WaitForKey` arm. -/
inductive ProcReply where
  | keyboardReset
  | grabbedKey (k : Nat)
deriving DecidableEq

/-- One iteration's environment for the `WaitForKey` polling loop: the
buffer contents at the `is_empty` poll, the `xt_sense` reading (true = the
line reads low), and the words the interrupt handler `put`s into the buffer
between the emptiness observation and the `take()`. -/
structure PollObs where
  buf : KeycodeBuffer
  sense_low : Bool
  puts : List Nat

/-- Outcome of the `WaitForKey` arm. -/
inductive WaitOutcome where
  | loops
  | panicked
  | reply (acts : List IdleAct) (r : ProcReply)
deriving DecidableEq

/-- Tests whether a `WaitOutcome` is the `unwrap()` panic. -/
def is_panic : WaitOutcome → Bool
  | WaitOutcome.panicked => true
  | _ => false

/-- The `WaitForKey` arm of `idle` (src/main.rs lines 206-235): while the
buffer reads empty, poll `xt_sense`; if it reads low, send AT 0xFF then
XT 0xAA and reply `KeyboardReset`.  On buffer non-empty, `take().unwrap()`
the word (after any interference `put`s) and reply `GrabbedKey` of the
extracted scancode.  `loops` = the environment ran out while still polling. -/
def wait_for_key : List PollObs → WaitOutcome
  | [] => WaitOutcome.loops
  | o :: rest =>
    if o.buf.is_empty then
      if o.sense_low then
        WaitOutcome.reply [IdleAct.sendAT 0xFF, IdleAct.sendXT 0xAA] ProcReply.keyboardReset
      else
        wait_for_key rest
    else
      match (o.puts.foldl KeycodeBuffer.put o.buf).take with
      | (some w, _) => WaitOutcome.reply [] (ProcReply.grabbedKey (extract_scancode w))
      | (none, _) => WaitOutcome.panicked

end AT2XT

namespace AT2XT

/-- C1: Bit-reversal extraction law: for every data byte b and parity bit p,
applying the extraction performed in idle (mask with ~0x4001, shift right
by 2, truncate to 8 bits, bit-reverse) to the raw accumulator value
0x4001 ||| (bit_reverse(b) <<< 2) ||| (p <<< 1) yields exactly b. -/
theorem c1_bit_reversal_extraction_law :
    ∀ (b : Fin 256) (p : Fin 2),
      extract_scancode (0x4001 ||| ((swap_bits b.val) <<< 2) ||| (p.val <<< 1)) = b.val := by
  set_option maxRecDepth 4000 in decide

/-- The data-bit loop of `send_byte_to_pc` emits the bits of the byte
least-significant-bit first. -/
theorem xt_loop_bits_range :
    ∀ b : Fin 256, xt_loop_bits 8 b.val = (List.range 8).map (fun i => (b.val >>> i) &&& 1) := by
  set_option maxRecDepth 8000 in decide

/-- C2: XT frame shape: whenever `send_byte_to_pc` gets past the host-release
wait, it emits exactly 10 bits through `send_xt_bit`, in order: 0, 1, then
the 8 data bits of the byte LSB-first; each bit drives `xt_data` to the bit
value, pulls `xt_clk` low, delays 88 ticks (~55 us) and releases `xt_clk`;
the XT lines are switched to outputs before and back to inputs after. -/
theorem c2_xt_frame_shape (b : Fin 256) (env : List XTLines) (acts : List XTAct)
    (h : send_byte_to_pc env b.val = some acts) :
    acts = XTAct.xtOut ::
      ((([0, 1] ++ (List.range 8).map (fun i => (b.val >>> i) &&& 1)).map send_xt_bit).flatten
        ++ [XTAct.xtIn]) ∧
    send_xt_bit 0 = [XTAct.xtDataUnset, XTAct.xtClkUnset, XTAct.delay 88, XTAct.xtClkSet] ∧
    send_xt_bit 1 = [XTAct.xtDataSet, XTAct.xtClkUnset, XTAct.delay 88, XTAct.xtClkSet] := by
  refine ⟨?_, rfl, rfl⟩
  induction env with
  | nil => simp [send_byte_to_pc] at h
  | cons l rest ih =>
    cases hc : (!l.clk || !l.data) with
    | true =>
      rw [send_byte_to_pc, if_pos hc] at h
      exact ih h
    | false =>
      rw [send_byte_to_pc, if_neg (by simp [hc])] at h
      rw [Option.some_inj] at h
      subst h
      rw [← xt_loop_bits_range b]
      simp [List.flatten, List.append_assoc]

/-- Witness for C2 at byte 83 with an immediately released host. -/
theorem c2_xt_frame_shape_witness :
    (XTAct.xtOut ::
      (send_xt_bit 0 ++ send_xt_bit 1 ++
        ((xt_loop_bits 8 83).map send_xt_bit).flatten ++ [XTAct.xtIn])) =
      XTAct.xtOut ::
        ((([0, 1] ++ (List.range 8).map (fun i => ((83 : Nat) >>> i) &&& 1)).map send_xt_bit).flatten
          ++ [XTAct.xtIn]) :=
  (c2_xt_frame_shape ⟨83, by decide⟩ [⟨true, true⟩] _ rfl).1

/-- C6: Host-side hold-off: while either XT line reads low at every poll,
`send_byte_to_pc` performs no XT output action; when it does produce
actions, the first is the switch of the XT lines to outputs. -/
theorem c6_host_hold_off (b : Nat) (env : List XTLines) :
    ((∀ l ∈ env, l.clk = false ∨ l.data = false) → send_byte_to_pc env b = none) ∧
    (∀ acts, send_byte_to_pc env b = some acts → acts.head? = some XTAct.xtOut) := by
  induction env with
  | nil =>
    refine ⟨fun _ => rfl, fun acts h => ?_⟩
    simp [send_byte_to_pc] at h
  | cons l rest ih =>
    constructor
    · intro hall
      have hl := hall l (by simp)
      have hc : (!l.clk || !l.data) = true := by
        rcases hl with h1 | h1 <;> simp [h1]
      rw [send_byte_to_pc, if_pos hc]
      exact ih.1 (fun y hy => hall y (by simp [hy]))
    · intro acts h
      cases hc : (!l.clk || !l.data) with
      | true =>
        rw [send_byte_to_pc, if_pos hc] at h
        exact ih.2 acts h
      | false =>
        rw [send_byte_to_pc, if_neg (by simp [hc])] at h
        rw [Option.some_inj] at h
        subst h
        rfl

/-- Witness for C6: a held-down clock line yields no actions, and a released
bus yields a trace headed by the output switch. -/
theorem c6_host_hold_off_witness :
    send_byte_to_pc [XTLines.mk false true] 0 = none ∧
    (XTAct.xtOut ::
      (send_xt_bit 0 ++ send_xt_bit 1 ++
        ((xt_loop_bits 8 0).map send_xt_bit).flatten ++ [XTAct.xtIn])).head? =
      some XTAct.xtOut :=
  ⟨(c6_host_hold_off 0 [⟨false, true⟩]).1 (by decide),
   (c6_host_hold_off 0 [⟨true, true⟩]).2 _ rfl⟩

/-- C3: Device-mode ISR behavior: with `HOST_MODE` false, `porta_handler`
shifts the sampled `at_data` level into `KeyIn`; if `KeyIn` is then full it
inhibits `at_clk`, transfers the taken word into `IN_BUFFER` via `put`,
clears `KeyIn` and releases the bus via `at_idle`; in all cases the last
action before returning clears the pending `at_clk` interrupt. -/
theorem c3_device_mode_isr (d : Bool) (s : ISRState) :
    ((s.key_in.shift_in d).is_full = true →
      porta_handler false d s =
        ({ s with key_in := (s.key_in.shift_in d).clear,
                  in_buffer := s.in_buffer.put (s.key_in.shift_in d).contents },
         [ISRAct.shiftIn d, ISRAct.atInhibit,
          ISRAct.bufPut (s.key_in.shift_in d).contents,
          ISRAct.keyInClear, ISRAct.atIdle, ISRAct.clearClkInt])) ∧
    ((s.key_in.shift_in d).is_full = false →
      porta_handler false d s =
        ({ s with key_in := s.key_in.shift_in d },
         [ISRAct.shiftIn d, ISRAct.clearClkInt])) ∧
    (porta_handler false d s).2.getLast? = some ISRAct.clearClkInt := by
  refine ⟨fun h => ?_, fun h => ?_, ?_⟩
  · simp [porta_handler, h]
  · simp [porta_handler, h]
  · cases h : (s.key_in.shift_in d).is_full <;> simp [porta_handler, h]

/-- Witness for C3: an eleventh shifted-in bit fills `KeyIn` and moves the
word into the buffer. -/
theorem c3_device_mode_isr_witness :
    porta_handler false true ⟨⟨10, 0⟩, KeyOut.new, KeycodeBuffer.new, false⟩ =
      (⟨⟨0, 0⟩, KeyOut.new, ⟨true, 1024⟩, false⟩,
       [ISRAct.shiftIn true, ISRAct.atInhibit, ISRAct.bufPut 1024,
        ISRAct.keyInClear, ISRAct.atIdle, ISRAct.clearClkInt]) :=
  (c3_device_mode_isr true ⟨⟨10, 0⟩, KeyOut.new, KeycodeBuffer.new, false⟩).1 rfl

/-- C8: Host-mode ISR behavior: with `HOST_MODE` true, if `KeyOut` is not
empty the handler drives `at_data` to the next shifted-out bit and, when
that shift leaves `KeyOut` empty, calls `at_idle`; if `KeyOut` is already
empty it sets `DEVICE_ACK` and clears `KeyOut` iff `at_data` reads low; in
all cases the last action clears the pending `at_clk` interrupt. -/
theorem c8_host_mode_isr (d : Bool) (s : ISRState) :
    (s.key_out.is_empty = false →
      porta_handler true d s =
        ({ s with key_out := (s.key_out.shift_out).2 },
         (if (s.key_out.shift_out).1 then [ISRAct.atDataSet] else [ISRAct.atDataUnset]) ++
         (if (s.key_out.shift_out).2.is_empty then [ISRAct.atIdle] else []) ++
         [ISRAct.clearClkInt])) ∧
    (s.key_out.is_empty = true → d = false →
      porta_handler true d s =
        ({ s with device_ack := true, key_out := s.key_out.clear },
         [ISRAct.setDeviceAckTrue, ISRAct.keyOutClear, ISRAct.clearClkInt])) ∧
    (s.key_out.is_empty = true → d = true →
      porta_handler true d s = (s, [ISRAct.clearClkInt])) ∧
    (porta_handler true d s).2.getLast? = some ISRAct.clearClkInt := by
  refine ⟨fun h => ?_, fun h hd => ?_, fun h hd => ?_, ?_⟩
  · cases hb : (s.key_out.shift_out).1 <;>
      cases he : (s.key_out.shift_out).2.is_empty <;>
      simp [porta_handler, h, hb, he]
  · subst hd; simp [porta_handler, h]
  · subst hd; simp [porta_handler, h]
  · cases h : s.key_out.is_empty with
    | false =>
      cases hb : (s.key_out.shift_out).1 <;>
        cases he : (s.key_out.shift_out).2.is_empty <;>
        simp [porta_handler, h, hb, he]
    | true => cases d <;> simp [porta_handler, h]

/-- Witness for C8: shifting out the stop bit drives `at_data` high and
releases the AT lines. -/
theorem c8_host_mode_isr_witness :
    porta_handler true true ⟨KeyIn.new, ⟨10, 1024⟩, KeycodeBuffer.new, false⟩ =
      (⟨KeyIn.new, ⟨11, 1024⟩, KeycodeBuffer.new, false⟩,
       [ISRAct.atDataSet, ISRAct.atIdle, ISRAct.clearClkInt]) :=
  (c8_host_mode_isr true ⟨KeyIn.new, ⟨10, 1024⟩, KeycodeBuffer.new, false⟩).1 rfl

/-- C4: AT transmit handshake: `send_byte_to_at_keyboard` frames the byte
into `KeyOut` and disables the `at_clk` interrupt in one critical section,
busy-waits for `at_clk` high, inhibits for 160 ticks (~100 us), drives
`at_data` low, delays 52 ticks (~33 us), then in one critical section
releases `at_clk` to input, clears the pending edge, re-enables the
falling-edge interrupt, sets `HOST_MODE` and clears `DEVICE_ACK`; then
waits for `DEVICE_ACK` and finally clears `HOST_MODE`. -/
theorem c4_at_transmit_handshake (b : Nat) :
    send_byte_to_at_keyboard b =
      [ATAct.critStart, ATAct.putKeyOut b, ATAct.disableClkInt, ATAct.critEnd,
       ATAct.waitClkHigh,
       ATAct.critStart, ATAct.atInhibit, ATAct.critEnd,
       ATAct.delay 160,
       ATAct.critStart, ATAct.atDataLow, ATAct.critEnd,
       ATAct.delay 52,
       ATAct.critStart, ATAct.atClkSet, ATAct.atClkMkIn, ATAct.clearPendingClkInt,
       ATAct.enableClkInt, ATAct.setHostMode true, ATAct.setDeviceAck false, ATAct.critEnd,
       ATAct.waitDeviceAck,
       ATAct.setHostMode false] ∧
    us_to_ticks 100 = 160 ∧ us_to_ticks 33 = 52 :=
  ⟨rfl, rfl, rfl⟩

/-- C7: LED command sequence: `toggle_leds mask` transmits AT command 0xED,
delays 4800 ticks (~3 ms), and transmits the mask byte; the wait for the
device acknowledge occurs inside the 0xED transmission, after the command
byte is enqueued and before any action of the mask transmission. -/
theorem c7_led_command_sequence (mask : Nat) :
    toggle_leds mask =
      send_byte_to_at_keyboard 0xED ++
        ATAct.delay (us_to_ticks 3000) :: send_byte_to_at_keyboard mask ∧
    us_to_ticks 3000 = 4800 ∧
    ∃ l₁ l₂, send_byte_to_at_keyboard 0xED = l₁ ++ ATAct.waitDeviceAck :: l₂ ∧
      ATAct.putKeyOut 0xED ∈ l₁ := by
  refine ⟨by simp [toggle_leds], rfl, ?_⟩
  exact ⟨[ATAct.critStart, ATAct.putKeyOut 0xED, ATAct.disableClkInt, ATAct.critEnd,
          ATAct.waitClkHigh, ATAct.critStart, ATAct.atInhibit, ATAct.critEnd,
          ATAct.delay 160, ATAct.critStart, ATAct.atDataLow, ATAct.critEnd,
          ATAct.delay 52, ATAct.critStart, ATAct.atClkSet, ATAct.atClkMkIn,
          ATAct.clearPendingClkInt, ATAct.enableClkInt, ATAct.setHostMode true,
          ATAct.setDeviceAck false, ATAct.critEnd],
         [ATAct.setHostMode false], rfl, by simp⟩

/-- C7 counterexample: at mask 0, the only byte values carried by any action
of the `toggle_leds` trace are 0xED and the mask itself — 0xFA appears
nowhere — and the only busy-waits in the whole trace are the `at_clk`-high
wait and the `DEVICE_ACK` line-bit wait of each sub-command; so no wait for
a 0xFA acknowledgement byte occurs between the two sub-commands. -/
theorem c7_no_ack_byte_wait :
    (toggle_leds 0).filterMap at_act_byte = [0xED, 0] ∧
    (0xFA ∉ (toggle_leds 0).filterMap at_act_byte) ∧
    (toggle_leds 0).filter is_wait =
      [ATAct.waitClkHigh, ATAct.waitDeviceAck,
       ATAct.waitClkHigh, ATAct.waitDeviceAck] := by
  decide

/-- C9: Implicit invariant: starting from any `HOST_MODE` value, the flag is
false when `send_byte_to_at_keyboard` returns; starting from false, the only
actions executed while the flag is true are the tail of the final setup
critical section, the `DEVICE_ACK` wait and the clearing store itself; and
with `HOST_MODE` false every `porta_handler` invocation takes the
device-mode branch (its trace starts with the shift-in). -/
theorem c9_host_mode_cleared_invariant (b : Nat) (hm : Bool) :
    run_host_mode hm (send_byte_to_at_keyboard b) = false ∧
    acts_in_host_mode false (send_byte_to_at_keyboard b) =
      [ATAct.setDeviceAck false, ATAct.critEnd, ATAct.waitDeviceAck,
       ATAct.setHostMode false] ∧
    ∀ (d : Bool) (s : ISRState),
      ∃ tail, (porta_handler false d s).2 = ISRAct.shiftIn d :: tail := by
  refine ⟨?_, rfl, fun d s => ?_⟩
  · cases hm <;> rfl
  · cases h : (s.key_in.shift_in d).is_full
    · exact ⟨[ISRAct.clearClkInt], by simp [porta_handler, h]⟩
    · exact ⟨[ISRAct.atInhibit, ISRAct.bufPut (s.key_in.shift_in d).contents,
        ISRAct.keyInClear, ISRAct.atIdle, ISRAct.clearClkInt],
        by simp [porta_handler, h]⟩

/-- C5: Host-initiated reset: if the `WaitForKey` polling loop has so far
seen an empty buffer with `xt_sense` high, and a poll then sees the buffer
empty and `xt_sense` low, the firmware sends AT 0xFF then XT 0xAA, in that
order, and replies `KeyboardReset`. -/
theorem c5_host_initiated_reset (pre rest : List PollObs) (o : PollObs)
    (hpre : ∀ x ∈ pre, x.buf.is_empty = true ∧ x.sense_low = false)
    (ho1 : o.buf.is_empty = true) (ho2 : o.sense_low = true) :
    wait_for_key (pre ++ o :: rest) =
      WaitOutcome.reply [IdleAct.sendAT 0xFF, IdleAct.sendXT 0xAA]
        ProcReply.keyboardReset := by
  induction pre with
  | nil => simp [wait_for_key, ho1, ho2]
  | cons x xs ih =>
    have hx := hpre x (by simp)
    simp only [List.cons_append, wait_for_key, hx.1, hx.2]
    simp only [if_true, if_false, Bool.false_eq_true, if_neg]
    exact ih (fun y hy => hpre y (by simp [hy]))

/-- Witness for C5: an immediate reset request. -/
theorem c5_host_initiated_reset_witness :
    wait_for_key [⟨KeycodeBuffer.new, true, []⟩] =
      WaitOutcome.reply [IdleAct.sendAT 0xFF, IdleAct.sendXT 0xAA]
        ProcReply.keyboardReset :=
  c5_host_initiated_reset [] [] ⟨KeycodeBuffer.new, true, []⟩ (by simp) rfl rfl

/-- A buffer that holds a word still holds one after any sequence of ISR
`put`s. -/
theorem present_after_puts (puts : List Nat) (b : KeycodeBuffer)
    (h : b.present = true) : (puts.foldl KeycodeBuffer.put b).present = true := by
  induction puts generalizing b with
  | nil => exact h
  | cons w ws ih => exact ih _ rfl

/-- C10: Implicit safety: the `take().unwrap()` in the `WaitForKey` arm
never panics: the take runs only after a poll observed the buffer
non-empty, and the interrupt handler only `put`s words in between, which
keeps the buffer non-empty. -/
theorem c10_take_never_panics (env : List PollObs) :
    is_panic (wait_for_key env) = false := by
  induction env with
  | nil => rfl
  | cons o rest ih =>
    cases he : o.buf.is_empty with
    | true =>
      cases hs : o.sense_low with
      | true => simp [wait_for_key, he, hs, is_panic]
      | false => simpa [wait_for_key, he, hs] using ih
    | false =>
      have hp : o.buf.present = true := by
        simpa [KeycodeBuffer.is_empty] using he
      have hp2 := present_after_puts o.puts o.buf hp
      simp [wait_for_key, he, KeycodeBuffer.take, hp2, is_panic]

end AT2XT
